import Mathlib

/-!
Verification of the hltv-demo-scraper download-and-metadata pipeline.

The Python sources (src/hltv_demo_scraper/{downloader,metadata,cli}.py) are
shallowly embedded below.  Strings are modelled as `List Char` internally
(with `String` wrappers at the interfaces), bytes as `Nat`, paths as
strings, the filesystem as an association list from path to content, and
the HTTP client as an oracle function supplied per attempt.  Machine-level
details that cannot affect any of the verified properties (the tqdm
progress bar driven by Content-Length, logging text, multi-byte UTF-8
recombination inside urllib's `unquote`) are noted at their definition
sites.
-/

/-- Python `str.isspace` restricted to the ASCII whitespace characters that
`str.strip()` removes: space, tab, newline, carriage return, vertical tab,
form feed. -/
def isPySpace (c : Char) : Bool :=
  c = ' ' || c = Char.ofNat 9 || c = Char.ofNat 10 || c = Char.ofNat 13 ||
  c = Char.ofNat 11 || c = Char.ofNat 12

/-- Python `str.strip()` with no argument: drop leading and trailing
whitespace. -/
def pyStrip (l : List Char) : List Char :=
  ((l.dropWhile isPySpace).reverse.dropWhile isPySpace).reverse

/-- Python `str.strip(chr)` for a single character: drop every leading and
trailing occurrence of that character. -/
def pyStripChar (ch : Char) (l : List Char) : List Char :=
  ((l.dropWhile (· = ch)).reverse.dropWhile (· = ch)).reverse

/-- Python `str.lower()` on the ASCII range (header parameter keys here are
ASCII). -/
def toLowerAscii (l : List Char) : List Char :=
  l.map (fun c => if 'A' ≤ c ∧ c ≤ 'Z' then Char.ofNat (c.toNat + 32) else c)

/-- Python `str.split(sep)` for a one-character separator: splits at every
occurrence, keeping empty segments; the result is always non-empty. -/
def splitOnChar (sep : Char) : List Char → List (List Char)
  | [] => [[]]
  | c :: rest =>
    match splitOnChar sep rest with
    | [] => [[]]
    | h :: t => if c = sep then [] :: h :: t else (c :: h) :: t

/-- Python `str.split(sep, 1)` for a one-character separator, together with
the `sep in s` test: `none` when the separator does not occur, otherwise
the parts before and after its first occurrence. -/
def splitFirst (sep : Char) : List Char → Option (List Char × List Char)
  | [] => none
  | c :: rest =>
    if c = sep then some ([], rest)
    else (splitFirst sep rest).map (fun p => (c :: p.1, p.2))

/-- The apostrophe character, used by the RFC 5987 `charset''value`
separator. -/
def apos : Char := Char.ofNat 39

/-- Python `value.partition("''")`, keeping only the part after the first
occurrence of two consecutive apostrophes (`none` when absent). -/
def partitionAfterTwoApos : List Char → Option (List Char)
  | a :: b :: rest =>
    if a = apos ∧ b = apos then some rest else partitionAfterTwoApos (b :: rest)
  | _ => none

/-- Value of an ASCII hex digit. -/
def hexVal (c : Char) : Option Nat :=
  if '0' ≤ c ∧ c ≤ '9' then some (c.toNat - '0'.toNat)
  else if 'a' ≤ c ∧ c ≤ 'f' then some (c.toNat - 'a'.toNat + 10)
  else if 'A' ≤ c ∧ c ≤ 'F' then some (c.toNat - 'A'.toNat + 10)
  else none

/-- `urllib.parse.unquote` at the byte level: each valid `%XY` escape
becomes the character with code `16*X+Y`; invalid escapes are kept
verbatim.  (The stdlib additionally recombines multi-byte UTF-8 sequences;
for the ASCII names exercised here the two agree.) -/
def pctDecode : List Char → List Char
  | '%' :: h1 :: h2 :: rest =>
    match hexVal h1, hexVal h2 with
    | some a, some b => Char.ofNat (16 * a + b) :: pctDecode rest
    | _, _ => '%' :: pctDecode (h1 :: h2 :: rest)
  | c :: rest => c :: pctDecode rest
  | [] => []

/-- `pathlib.Path(s).name`: the last path component, after dropping empty
segments and `"."` segments (POSIX flavour, which is what the scraper runs
against). -/
def pathName (s : List Char) : List Char :=
  match ((splitOnChar '/' s).filter (fun seg => seg ≠ [] ∧ seg ≠ ['.'])).getLast? with
  | some l => l
  | none => []

/-- Loop body of `DemoDownloader._parse_content_disposition` for one
semicolon-separated part: `none` means the loop continues (no `=`, or a key
other than `filename*` / `filename`); `some v` means the loop returns `v`. -/
def extractPart (part : List Char) : Option (List Char) :=
  match splitFirst '=' part with
  | none => none
  | some (k, v) =>
    let key := pyStrip (toLowerAscii k)
    let value := pyStripChar '"' (pyStrip v)
    if key = "filename*".data then
      let candidate :=
        match partitionAfterTwoApos value with
        | some e => if e = [] then value else e
        | none => value
      some (pathName (pctDecode candidate))
    else if key = "filename".data then
      some (pathName value)
    else none

/-- The `for part in parts[1:]` scan of
`DemoDownloader._parse_content_disposition`: first part that yields a
filename wins. -/
def scanParts : List (List Char) → Option (List Char)
  | [] => none
  | p :: rest =>
    match extractPart p with
    | some v => some v
    | none => scanParts rest

/-- `DemoDownloader._parse_content_disposition`: split the header on `;`,
strip each part and drop empty ones, then scan every part after the first
for a `filename*=` or `filename=` parameter. -/
def parse_content_disposition (header : String) : Option String :=
  let parts := ((splitOnChar ';' header.data).map pyStrip).filter (· ≠ [])
  (scanParts (parts.drop 1)).map String.mk

/-- `DemoDownloader._ensure_demo_id_prefix` (renamed to fit this file's
naming rules): reduce to the basename and guarantee the `"<id>_"` prefix. -/
def ensure_demo_id_prefixed (filename : String) (demo_id : Int) : String :=
  let sanitized := String.mk (pathName filename.data)
  let pfx := toString demo_id ++ "_"
  if pfx.data.isPrefixOf sanitized.data then sanitized else pfx ++ sanitized

/-- `DemoDownloader._filename_from_response`: Content-Disposition first
(a `None` header and an empty header are both falsy, and an empty parsed
filename is falsy too), then the basename of the final resolved URL with
any query string stripped, then the `"<id>_demo.rar"` fallback. -/
def filename_from_response (disposition : Option String) (url : String)
    (demo_id : Int) : String :=
  let fromDisp : Option String :=
    match disposition with
    | none => none
    | some d =>
      if d = "" then none
      else
        match parse_content_disposition d with
        | some f => if f = "" then none else some f
        | none => none
  match fromDisp with
  | some f => ensure_demo_id_prefixed f demo_id
  | none =>
    let fromUrl := String.mk ((pathName url.data).takeWhile (· ≠ '?'))
    if fromUrl = "" then toString demo_id ++ "_demo.rar"
    else ensure_demo_id_prefixed fromUrl demo_id

/-! ## Download engine (`downloader.py`, class `DemoDownloader`) -/

/-- The dataclass `DownloadResult` of `downloader.py`, field for field:
`demo_id`, `status`, `message` (default `""`), `file_path` (default
`None`).  Note that the dataclass defines no byte-count field. -/
structure DownloadResult where
  demo_id : Int
  status : String
  message : String := ""
  file_path : Option String := none
deriving DecidableEq

/-- Outcome of one `scraper.get` call: either the request itself raises a
`RequestException`, or a response arrives.  A response carries the status
code, the `Content-Disposition` header, the final resolved URL and the
body as the chunk sequence that `iter_content` yields.  (`Content-Length`
only sizes the tqdm progress bar and cannot influence any outcome, so it
is omitted; a `RequestException` raised midway through `iter_content` is
not modelled — no verified property below exercises a partially delivered
body.) -/
structure Response where
  status_code : Int
  contentDisposition : Option String
  url : String
  chunks : List (List Nat)

/-- One fetch attempt as seen by the retry loop. -/
inductive FetchOutcome where
  | raises (err : String)
  | ok (resp : Response)

/-- `requests.Response.raise_for_status`: raises an `HTTPError` (a
`RequestException`) exactly for status codes in `[400, 600)`. -/
def raise_for_status_err (code : Int) : Option String :=
  if 400 ≤ code ∧ code < 600 then some ("HTTP error " ++ toString code) else none

/-- Constructor arguments of `DemoDownloader` that the download loop
reads.  `retries` is kept unclamped here; the clamping `max(1, retries)`
performed in `__init__` is applied by `attemptCount` below, exactly where
`self.retries` is consumed. -/
structure DownloaderConfig where
  output_dir : String
  retries : Int
  skip_existing : Bool

/-- Number of loop iterations of `for attempt in range(1, self.retries + 1)`
with `self.retries = max(1, retries)`. -/
def attemptCount (cfg : DownloaderConfig) : Nat := (max 1 cfg.retries).toNat

/-- The `f"Failed after {self.retries} attempts: {last_error}"` message. -/
def failedMessage (cfg : DownloaderConfig) (lastErr : Option String) : String :=
  "Failed after " ++ toString (max 1 cfg.retries) ++ " attempts: " ++ lastErr.getD "None"

/-- Filesystem content lookup (files keyed by path, content = byte list). -/
def fsLookup (fs : List (String × List Nat)) (path : String) : Option (List Nat) :=
  match fs with
  | [] => none
  | (p, c) :: rest => if p = path then some c else fsLookup rest path

/-- Filesystem write: replace an existing file's content, else add the
file. -/
def fsWrite (fs : List (String × List Nat)) (path : String) (content : List Nat) :
    List (String × List Nat) :=
  match fs with
  | [] => [(path, content)]
  | (p, c) :: rest =>
    if p = path then (p, content) :: rest else (p, c) :: fsWrite rest path content

/-- What one invocation of `download_demo` produces: the returned
`DownloadResult`, the filesystem afterwards, and how many `scraper.get`
calls were made. -/
structure EngineRun where
  result : DownloadResult
  fs : List (String × List Nat)
  fetchCalls : Nat
deriving DecidableEq

/-- The retry loop of `DemoDownloader.download_demo`, recursing on the
number of remaining attempts.  `fetch n` is the outcome of the
`scraper.get` call of attempt number `n`.  A 404 returns `not_found` at
once; other error statuses raise and are caught by the
`except RequestException` arm like a raising fetch; on success the
filename is derived, an existing file short-circuits to `skipped` when
`skip_existing` is set, and otherwise the chunks are streamed to the
destination, skipping empty chunks (`if not chunk: continue`).  The
metadata hand-off (downloader.py lines 109-120) wraps
`record_download` — modelled separately below — in a `try/except` that
logs and discards any exception, so it can change neither the result nor
the artifact files and is not repeated here. -/
def downloadAttempts (fetch : Nat → FetchOutcome) (cfg : DownloaderConfig)
    (demo_id : Int) (fs0 : List (String × List Nat)) :
    Nat → Nat → Option String → Nat → EngineRun
  | _, 0, lastErr, calls =>
    { result := { demo_id := demo_id, status := "failed",
                  message := failedMessage cfg lastErr },
      fs := fs0, fetchCalls := calls }
  | attempt, remaining + 1, _lastErr, calls =>
    match fetch attempt with
    | .raises e =>
      downloadAttempts fetch cfg demo_id fs0 (attempt + 1) remaining (some e) (calls + 1)
    | .ok resp =>
      if resp.status_code = 404 then
        { result := { demo_id := demo_id, status := "not_found",
                      message := "Demo ID does not exist" },
          fs := fs0, fetchCalls := calls + 1 }
      else
        match raise_for_status_err resp.status_code with
        | some e =>
          downloadAttempts fetch cfg demo_id fs0 (attempt + 1) remaining (some e) (calls + 1)
        | none =>
          let filename := filename_from_response resp.contentDisposition resp.url demo_id
          let destination := cfg.output_dir ++ "/" ++ filename
          if cfg.skip_existing ∧ (fsLookup fs0 destination).isSome then
            { result := { demo_id := demo_id, status := "skipped",
                          message := "File already exists",
                          file_path := some destination },
              fs := fs0, fetchCalls := calls + 1 }
          else
            let content := resp.chunks.foldl (fun acc c => if c = [] then acc else acc ++ c) []
            { result := { demo_id := demo_id, status := "downloaded",
                          file_path := some destination },
              fs := fsWrite fs0 destination content, fetchCalls := calls + 1 }

/-- `DemoDownloader.download_demo`: run the attempt loop starting at
attempt 1 with no last error and no fetch calls yet. -/
def download_demo (fetch : Nat → FetchOutcome) (cfg : DownloaderConfig)
    (demo_id : Int) (fs : List (String × List Nat)) : EngineRun :=
  downloadAttempts fetch cfg demo_id fs 1 (attemptCount cfg) none 0

/-! ## Exit status (`cli.py`, `main`) -/

/-- The exit computation of `cli.main` for the `download` command:
`failed_downloads = [r for r in results if r.status not in
{"downloaded", "skipped"}]; return 1 if failed_downloads else 0`. -/
def exit_status (results : List DownloadResult) : Int :=
  if results.any (fun r => ¬ (r.status = "downloaded" ∨ r.status = "skipped")) then 1 else 0

/-! ## ID set builder (`downloader.py` `unique_demo_ids`,
`cli.py` `_collect_demo_ids`) -/

/-- The loop of `unique_demo_ids`.  The Python keeps a `seen` set next to
the `ordered` list, but updates them in lockstep, so `seen` always holds
exactly the elements of `ordered`; the embedding therefore tests
membership in `ordered` directly. -/
def uniqueGo : List Int → List Int → List Int
  | ordered, [] => ordered
  | ordered, d :: rest =>
    if d ∈ ordered then uniqueGo ordered rest else uniqueGo (ordered ++ [d]) rest

/-- `unique_demo_ids`: first-occurrence deduplication. -/
def unique_demo_ids (l : List Int) : List Int := uniqueGo [] l

/-- Specification-side description of first-occurrence order: keep the
head and recurse on the tail purged of further copies of it. -/
def firstOccs : List Int → List Int
  | [] => []
  | d :: rest => d :: firstOccs (rest.filter (fun x => decide (x ≠ d)))
termination_by l => l.length
decreasing_by
  simp only [List.length_cons, Nat.lt_succ_iff]
  exact List.length_filter_le _ _

/-- Python `range(s, e + 1)` as a list of `Int` (empty when `e < s`). -/
def rangeList (s e : Int) : List Int :=
  (List.range (e + 1 - s).toNat).map (fun k => s + k)

/-- `cli._collect_demo_ids`: explicit IDs, then file-sourced IDs, then the
inclusive range (validated), deduplicated by `unique_demo_ids`.  The
partially-supplied-range usage error is outside the claims and is folded
into the `Option` argument. -/
def collect_demo_ids (explicitIds fileIds : List Int) (rangeIds : Option (Int × Int)) :
    Except String (List Int) :=
  let ids := explicitIds ++ fileIds
  match rangeIds with
  | none => .ok (unique_demo_ids ids)
  | some (s, e) =>
    if e < s then .error "--end-id must be greater than or equal to --start-id"
    else .ok (unique_demo_ids (ids ++ rangeList s e))

/-! ## ID file generation (`downloader.py`, `write_demo_id_file`) -/

/-- A filesystem with text files and directories, for
`write_demo_id_file`. -/
structure TextFS where
  files : List (String × String)
  dirs : List String
deriving DecidableEq

/-- `pathlib.Path(p).parent` as a string: everything before the last `/`,
or `"."` when there is no separator. -/
def parentDir (p : String) : String :=
  let segs := splitOnChar '/' p.data
  match segs.dropLast with
  | [] => "."
  | ss => String.mk (List.intercalate ['/'] ss)

/-- `destination.parent.mkdir(parents=True, exist_ok=True)` on the model
filesystem: record the parent directory (ancestor chains collapse into the
single recorded path; no claim distinguishes them). -/
def mkdirParent (fs : TextFS) (dest : String) : TextFS :=
  let parent := parentDir dest
  if parent ∈ fs.dirs then fs else { fs with dirs := fs.dirs ++ [parent] }

/-- The text written by the `for demo_id in range(...)` loop: one ID per
line, each followed by a newline. -/
def idFileContent (s e : Int) : String :=
  String.join ((rangeList s e).map (fun i => toString i ++ "\n"))

/-- `write_demo_id_file`: validate the range first (raising `ValueError`
before any filesystem operation), then create the parent directory and
write the ID lines.  The returned filesystem is unchanged on the error
path. -/
def write_demo_id_file (start_id end_id : Int) (destination : String) (fs : TextFS) :
    Except String String × TextFS :=
  if end_id < start_id then
    (.error "end_id must be greater than or equal to start_id", fs)
  else
    let fs1 := mkdirParent fs destination
    (.ok destination,
     { fs1 with files := (fs1.files.filter (fun f => f.1 ≠ destination)) ++
         [(destination, idFileContent start_id end_id)] })

/-! ## Metadata collector (`metadata.py`, class `MetadataCollector`) -/

/-- JSON values, as far as the metadata document needs them. -/
inductive JVal where
  | null : JVal
  | str (s : String) : JVal
  | num (n : Int) : JVal
  | arr (xs : List JVal) : JVal
  | obj (fields : List (String × JVal)) : JVal

/-- Dictionary lookup on a JSON object (first binding of the key wins; a
parsed Python dict has unique keys). -/
def jlookup (fields : List (String × JVal)) (k : String) : Option JVal :=
  match fields with
  | [] => none
  | (k0, v0) :: rest => if k0 = k then some v0 else jlookup rest k

/-- Python dict assignment `d[k] = v` preserving insertion order: replace
the value in place when the key exists, else append the new binding. -/
def jset : List (String × JVal) → String → JVal → List (String × JVal)
  | [], k, v => [(k, v)]
  | (k0, v0) :: rest, k, v =>
    if k0 = k then (k0, v) :: rest else (k0, v0) :: jset rest k v

/-- State of the metadata file as `_load_metadata` observes it: missing,
or present with the outcome of `json.load` (which raises
`JSONDecodeError` on unparseable content). -/
inductive MetaFileState where
  | absent : MetaFileState
  | present (loadResult : Except String (List (String × JVal))) : MetaFileState

/-- `MetadataCollector._load_metadata`: a missing file is the empty
document; a `JSONDecodeError` is caught, a warning logged (the returned
flag) and the empty document used; a parsed document is returned as-is.
The function is total: no input aborts. -/
def load_metadata : MetaFileState → List (String × JVal) × Bool
  | .absent => ([], false)
  | .present (.ok d) => (d, false)
  | .present (.error _) => ([], true)

/-- The `"demos"` object of a document (empty when absent or not an
object). -/
def demosOf (metadata : List (String × JVal)) : List (String × JVal) :=
  match jlookup metadata "demos" with
  | some (JVal.obj fs) => fs
  | _ => []

/-- The read-merge-write core of `record_download` (metadata.py lines
75-77): `metadata.setdefault("demos", {})[str(demo_id)] = entry` followed
by `metadata["last_updated"] = now`.  When a previous `"demos"` value is
not an object the Python raises a `TypeError` on the item assignment; the
theorems below therefore assume `"demos"` is absent or an object, which is
where `demosOf` coincides with what `setdefault` hands out. -/
def mergeDemoEntry (metadata : List (String × JVal)) (demo_id : Int)
    (entry : JVal) (now : String) : List (String × JVal) :=
  let metadata1 :=
    jset metadata "demos" (JVal.obj (jset (demosOf metadata) (toString demo_id) entry))
  jset metadata1 "last_updated" (JVal.str now)

/-- The dataclass `MatchMetadata` of `metadata.py`. -/
structure MatchMetadata where
  match_id : Option String
  match_url : Option String
  teams : List String
  date : Option String

/-- What the scraping code observes of a BeautifulSoup document, one field
per CSS-selector query it performs (text already extracted with
`get_text(strip=True)` by the opaque query capability). -/
structure SoupPage where
  resultCardHref : Option String
  teamsBoxNames : List String
  dropdownNames : List String
  dateUnix : Option String

/-- Outcome of one `scraper.get` in the metadata collector: a raised
`RequestException`, or a response with its status code and parsed body. -/
inductive HttpReply where
  | raises (err : String)
  | ok (status : Int) (page : SoupPage)

/-- Whether `needle` occurs contiguously inside `hay`. -/
def containsSeq (needle hay : List Char) : Bool :=
  hay.tails.any (fun t => needle.isPrefixOf t)

/-- `urllib.parse.urljoin(base, href)` for the cases the scraper meets: an
absolute href is kept, a root-relative href is attached to the site, and a
relative href is resolved against the path-less base URL. -/
def urljoinModel (base href : String) : String :=
  if containsSeq "://".data href.data then href
  else if href.data.head? = some '/' then base ++ href
  else base ++ "/" ++ href

/-- The `_BASE_URL` constant. -/
def hltvBaseUrl : String := "https://www.hltv.org"

/-- `MetadataCollector._locate_match_url`: GET the search endpoint,
`raise_for_status`, then take the first result-card anchor's `href`
(a missing card or falsy href yields `none`, which is not an error) and
resolve it against the base URL.  Errors (`.error`) are raised
`RequestException`s. -/
def locate_match_url (reply : HttpReply) : Except String (Option String) :=
  match reply with
  | .raises e => .error e
  | .ok status page =>
    match raise_for_status_err status with
    | some e => .error e
    | none =>
      match page.resultCardHref with
      | none => .ok none
      | some href =>
        if href = "" then .ok none else .ok (some (urljoinModel hltvBaseUrl href))

/-- `MetadataCollector._fetch_match_page`: GET and `raise_for_status`,
returning the parsed page. -/
def fetch_match_page (reply : HttpReply) : Except String SoupPage :=
  match reply with
  | .raises e => .error e
  | .ok status page =>
    match raise_for_status_err status with
    | some e => .error e
    | none => .ok page

/-- One accumulation loop of `_extract_teams`: skip empty names and
duplicates, appending in page order. -/
def dedupNonEmptyInto (acc : List String) (names : List String) : List String :=
  names.foldl (fun acc n => if n = "" ∨ n ∈ acc then acc else acc ++ [n]) acc

/-- `MetadataCollector._extract_teams`: the primary `.teamsBox` layout
wins when it yields any name; otherwise the `.teamsBoxDropdown` fallback
is accumulated into the (empty) list. -/
def extract_teams (p : SoupPage) : List String :=
  let teams := dedupNonEmptyInto [] p.teamsBoxNames
  if teams ≠ [] then teams else dedupNonEmptyInto teams p.dropdownNames

/-- Python `int(s)` on an optionally signed decimal string (the stdlib
also accepts surrounding whitespace and underscores; the `data-unix`
attributes exercised here are plain digit strings). -/
def pyIntParse (s : String) : Option Int :=
  let chars := s.data
  let core : Option (List Char × Bool) :=
    match chars with
    | '-' :: rest => some (rest, true)
    | '+' :: rest => some (rest, false)
    | rest => some (rest, false)
  match core with
  | some (digits, neg) =>
    if digits ≠ [] ∧ digits.all (fun c => '0' ≤ c ∧ c ≤ '9') then
      let n : Nat := digits.foldl (fun acc c => 10 * acc + (c.toNat - '0'.toNat)) 0
      some (if neg then -(n : Int) else (n : Int))
    else none
  | none => none

/-- `MetadataCollector._extract_match_date`.  The two date selectors
collapse into the single `dateUnix` field (first hit); `msToDate` stands
for the stdlib collaborator
`datetime.fromtimestamp(ms / 1000, tz=UTC).date().isoformat()`.  An
absent attribute or an unparseable integer yields `none`. -/
def extract_match_date (msToDate : Int → String) (p : SoupPage) : Option String :=
  match p.dateUnix with
  | none => none
  | some s =>
    match pyIntParse s with
    | none => none
    | some n => some (msToDate n)

/-- `MetadataCollector._parse_match_id`: strip the query string, strip
trailing slashes, split the path on `/`, find the literal segment
`"matches"` and return the following segment when it exists. -/
def parse_match_id (match_url : String) : Option String :=
  let path := match_url.data.takeWhile (· ≠ '?')
  let parts := splitOnChar '/' ((path.reverse.dropWhile (· = '/')).reverse)
  match parts.findIdx? (· = "matches".data) with
  | none => none
  | some i => (parts[i+1]?).map String.mk

/-- `MetadataCollector._collect_match_metadata`: locate the match URL
(errors from the search GET propagate out of this helper); no URL means no
metadata (`none`); with a URL, a failing match-page fetch degrades to
empty teams and an absent date, and a partial record is still produced. -/
def collect_match_metadata (search : HttpReply) (matchFetch : String → HttpReply)
    (msToDate : Int → String) : Except String (Option MatchMetadata) :=
  match locate_match_url search with
  | .error e => .error e
  | .ok none => .ok none
  | .ok (some murl) =>
    let soup : Option SoupPage :=
      match fetch_match_page (matchFetch murl) with
      | .error _ => none
      | .ok p => some p
    let teams := match soup with | some p => extract_teams p | none => []
    let date := match soup with | some p => extract_match_date msToDate p | none => none
    .ok (some { match_id := parse_match_id murl, match_url := some murl,
                teams := teams, date := date })

/-- `MatchMetadata.as_dict` composed with the JSON rendering: absent
fields serialize as explicit `null`. -/
def matchInfoJson : Option MatchMetadata → JVal
  | none => JVal.null
  | some m =>
    JVal.obj
      [("match_id", (m.match_id.map JVal.str).getD JVal.null),
       ("match_url", (m.match_url.map JVal.str).getD JVal.null),
       ("teams", JVal.arr (m.teams.map JVal.str)),
       ("date", (m.date.map JVal.str).getD JVal.null)]

/-- The caller-supplied facts that `record_download` reads:
`file_path.name`, `file_path.stat().st_size`, the original template URL
and `response.url` (the empty string standing for a falsy value). -/
structure RecordInput where
  demo_id : Int
  fileName : String
  fileSize : Int
  original_url : String
  response_url : String

/-- The `entry` dict that `record_download` builds;
`resolved_download_url` is added only when `response.url` is truthy. -/
def demoEntryJson (inp : RecordInput) (md : Option MatchMetadata)
    (downloadDate : String) : JVal :=
  JVal.obj
    ([("filename", JVal.str inp.fileName),
      ("match_info", matchInfoJson md),
      ("download_date", JVal.str downloadDate),
      ("file_size", JVal.num inp.fileSize),
      ("original_url", JVal.str inp.original_url)] ++
     (if inp.response_url ≠ "" then [("resolved_download_url", JVal.str inp.response_url)]
      else []))

/-- What one `record_download` call produces: the document written back,
whether the metadata-collection warning fired (the
`except RequestException` arm at metadata.py lines 60-62), and whether
the JSON-parse warning fired inside `_load_metadata`. -/
structure RecordOutcome where
  doc : List (String × JVal)
  metaWarned : Bool
  parseWarned : Bool

/-- `MetadataCollector.record_download`: collect match metadata, catching
a raised `RequestException` internally (warning logged, `match_metadata =
None`); build the entry; load the existing document; set
`demos[str(demo_id)]` and `last_updated`; write the document back.  The
serialization details of `_write_metadata` (2-space indent, literal
non-ASCII) do not affect the document's content and are not modelled. -/
def record_download (search : HttpReply) (matchFetch : String → HttpReply)
    (msToDate : Int → String) (inp : RecordInput)
    (downloadDate lastUpdated : String) (fstate : MetaFileState) : RecordOutcome :=
  let collected : Option MatchMetadata × Bool :=
    match collect_match_metadata search matchFetch msToDate with
    | .error _ => (none, true)
    | .ok m => (m, false)
  let entry := demoEntryJson inp collected.1 downloadDate
  let loaded := load_metadata fstate
  { doc := mergeDemoEntry loaded.1 inp.demo_id entry lastUpdated,
    metaWarned := collected.2, parseWarned := loaded.2 }

/-! ## Theorems -/

/-- Concrete downloader configuration used by the closed evaluations. -/
def cfgDemos : DownloaderConfig :=
  { output_dir := "demos", retries := 3, skip_existing := true }

/-- A 200 response delivering 3 bytes in two non-empty chunks with an
empty chunk interspersed. -/
def respThreeBytes : Response :=
  { status_code := 200, contentDisposition := none, url := "https://x/f.rar",
    chunks := [[10, 20], [], [30]] }

/-- A 200 response identical to `respThreeBytes` except that the body is
a single 1-byte chunk. -/
def respOneByte : Response :=
  { status_code := 200, contentDisposition := none, url := "https://x/f.rar",
    chunks := [[10]] }

/-- C1: a successful download streams the body to disk faithfully — with
a 3-byte body split over chunks `[10,20]`, `[]`, `[30]` the destination
file has size 3, and with a 1-byte body it has size 1 — but the
`DownloadResult` returned by `download_demo` is byte-for-byte identical
in the two runs: the outcome carries the destination path and no byte
count at all (the dataclass has no `bytes_downloaded` field, although
`cli._print_summary` reads one), so the claim that the outcome carries
`bytes_downloaded == N` fails on the code. -/
theorem downloaded_result_carries_no_byte_count :
    (download_demo (fun _ => .ok respThreeBytes) cfgDemos 1 []).result =
      { demo_id := 1, status := "downloaded", file_path := some "demos/1_f.rar" } ∧
    (fsLookup (download_demo (fun _ => .ok respThreeBytes) cfgDemos 1 []).fs
        "demos/1_f.rar").map List.length = some 3 ∧
    (fsLookup (download_demo (fun _ => .ok respOneByte) cfgDemos 1 []).fs
        "demos/1_f.rar").map List.length = some 1 ∧
    (download_demo (fun _ => .ok respThreeBytes) cfgDemos 1 []).result =
      (download_demo (fun _ => .ok respOneByte) cfgDemos 1 []).result := by
  refine ⟨rfl, rfl, rfl, rfl⟩

/-- C2 counterexample: a batch whose single outcome is `not_found`
contains no `failed` outcome, yet `cli.main` exits with status 1 — so
"non-zero iff at least one outcome is Failed" is false on the code. -/
theorem exit_status_notfound_nonzero :
    exit_status [{ demo_id := 1, status := "not_found",
                   message := "Demo ID does not exist" }] = 1 ∧
    ({ demo_id := 1, status := "not_found",
       message := "Demo ID does not exist" : DownloadResult }).status ≠ "failed" := by
  refine ⟨rfl, by decide⟩

/-- C2 (amended): the exit status of the download batch is non-zero iff
some outcome's status is neither `downloaded` nor `skipped` — i.e. both
`failed` and `not_found` outcomes cause a non-zero exit, while `skipped`
and `downloaded` never do. -/
theorem exit_status_nonzero_iff (results : List DownloadResult) :
    exit_status results ≠ 0 ↔
      ∃ r ∈ results, r.status ≠ "downloaded" ∧ r.status ≠ "skipped" := by
  rw [exit_status]
  split
  · rename_i h
    simp only [List.any_eq_true, decide_eq_true_eq, not_or] at h
    exact iff_of_true (by decide)
      (by rcases h with ⟨r, hr, h1, h2⟩; exact ⟨r, hr, h1, h2⟩)
  · rename_i h
    simp only [List.any_eq_true, decide_eq_true_eq, not_or] at h
    push_neg at h
    refine iff_of_false (by decide) ?_
    rintro ⟨r, hr, h1, h2⟩
    exact absurd (h r hr) (by simp [h1, h2])

/-- C7: when the first fetch attempt yields a 404 response,
`download_demo` returns `not_found` after exactly one fetch call, with no
retry and the filesystem untouched — whatever the configured retry
count. -/
theorem notfound_short_circuits (fetch : Nat → FetchOutcome) (cfg : DownloaderConfig)
    (demo_id : Int) (fs : List (String × List Nat)) (resp : Response)
    (h1 : fetch 1 = .ok resp) (h404 : resp.status_code = 404) :
    download_demo fetch cfg demo_id fs =
      { result := { demo_id := demo_id, status := "not_found",
                    message := "Demo ID does not exist" },
        fs := fs, fetchCalls := 1 } := by
  have hpos : 0 < attemptCount cfg := by
    have h1le : (1 : Int) ≤ max 1 cfg.retries := le_max_left _ _
    unfold attemptCount
    omega
  obtain ⟨k, hk⟩ : ∃ k, attemptCount cfg = k + 1 := ⟨attemptCount cfg - 1, by omega⟩
  rw [download_demo, hk]
  simp [downloadAttempts, h1, h404]

/-- A response whose status is 404, as the remote returns for an unknown
demo ID. -/
def resp404 : Response :=
  { status_code := 404, contentDisposition := none, url := "", chunks := [] }

/-- C7 witness: a client that always answers 404 for ID 99999999 yields
one fetch call and outcome `not_found`. -/
theorem notfound_short_circuits_witness :
    download_demo (fun _ => .ok resp404) cfgDemos 99999999 [] =
      { result := { demo_id := 99999999, status := "not_found",
                    message := "Demo ID does not exist" },
        fs := [], fetchCalls := 1 } :=
  notfound_short_circuits (fun _ => .ok resp404) cfgDemos 99999999 [] resp404 rfl rfl

/-- When every fetch call raises, the retry loop consumes all remaining
attempts, makes one fetch call per attempt, leaves the filesystem alone,
and fails with the last error, namely the one of the final attempt. -/
theorem downloadAttempts_all_raise (fetch : Nat → FetchOutcome) (cfg : DownloaderConfig)
    (demo_id : Int) (fs : List (String × List Nat)) (err : Nat → String)
    (hf : ∀ n, fetch n = .raises (err n)) :
    ∀ (remaining attempt : Nat) (lastErr : Option String) (calls : Nat),
      downloadAttempts fetch cfg demo_id fs attempt (remaining + 1) lastErr calls =
        { result := { demo_id := demo_id, status := "failed",
                      message := failedMessage cfg (some (err (attempt + remaining))) },
          fs := fs, fetchCalls := calls + remaining + 1 } := by
  intro remaining
  induction remaining with
  | zero =>
    intro attempt lastErr calls
    simp [downloadAttempts, hf attempt]
  | succ m ih =>
    intro attempt lastErr calls
    have step : downloadAttempts fetch cfg demo_id fs attempt (m + 1 + 1) lastErr calls =
        downloadAttempts fetch cfg demo_id fs (attempt + 1) (m + 1)
          (some (err attempt)) (calls + 1) := by
      rw [downloadAttempts, hf attempt]
    rw [step, ih (attempt + 1) (some (err attempt)) (calls + 1)]
    have h1 : attempt + 1 + m = attempt + (m + 1) := by omega
    have h2 : calls + 1 + m + 1 = calls + (m + 1) + 1 := by omega
    rw [h1, h2]

/-- C6: with a fetch client that raises a transient error on every
attempt, `download_demo` makes exactly `max(1, retries)` fetch calls and
returns a `failed` outcome whose message names that attempt count and the
last underlying error; the filesystem is untouched. -/
theorem retry_exhaustion_counts (fetch : Nat → FetchOutcome) (cfg : DownloaderConfig)
    (demo_id : Int) (fs : List (String × List Nat)) (err : Nat → String)
    (hf : ∀ n, fetch n = .raises (err n)) :
    (download_demo fetch cfg demo_id fs).fetchCalls = (max 1 cfg.retries).toNat ∧
    (download_demo fetch cfg demo_id fs).result.status = "failed" ∧
    (download_demo fetch cfg demo_id fs).result.message =
      "Failed after " ++ toString (max 1 cfg.retries) ++ " attempts: " ++
        err (max 1 cfg.retries).toNat ∧
    (download_demo fetch cfg demo_id fs).fs = fs := by
  have hpos : 0 < attemptCount cfg := by
    have h1le : (1 : Int) ≤ max 1 cfg.retries := le_max_left _ _
    unfold attemptCount
    omega
  obtain ⟨k, hk⟩ : ∃ k, attemptCount cfg = k + 1 := ⟨attemptCount cfg - 1, by omega⟩
  have hcnt : attemptCount cfg = (max 1 cfg.retries).toNat := rfl
  have hcalls : (0 : Nat) + k + 1 = (max 1 cfg.retries).toNat := by omega
  have hattempt : 1 + k = (max 1 cfg.retries).toNat := by omega
  rw [download_demo, hk, downloadAttempts_all_raise fetch cfg demo_id fs err hf k 1 none 0]
  refine ⟨hcalls, rfl, ?_, rfl⟩
  show failedMessage cfg (some (err (1 + k))) = _
  rw [hattempt]
  rfl

/-- C6 witness: `retries = 3` and an always-raising client give exactly 3
fetch calls and the message `"Failed after 3 attempts: boom"`, which
mentions `"3"`. -/
theorem retry_exhaustion_counts_witness :
    (download_demo (fun _ => .raises "boom") cfgDemos 9 []).fetchCalls = 3 ∧
    (download_demo (fun _ => .raises "boom") cfgDemos 9 []).result.message =
      "Failed after 3 attempts: boom" := by
  obtain ⟨h1, _, h3, _⟩ := retry_exhaustion_counts (fun _ => .raises "boom") cfgDemos 9 []
    (fun _ => "boom") (fun _ => rfl)
  exact ⟨h1, h3⟩

/-- C9: `write_demo_id_file` with `end_id < start_id` fails with the
`ValueError` message before touching the filesystem: the returned
filesystem is exactly the input one (no file, no parent directory
created). -/
theorem range_validation_no_write (start_id end_id : Int) (destination : String)
    (fs : TextFS) (h : end_id < start_id) :
    write_demo_id_file start_id end_id destination fs =
      (.error "end_id must be greater than or equal to start_id", fs) := by
  rw [write_demo_id_file, if_pos h]

/-- C9 witness: `generate-id-file 10 5 out.txt` fails on the empty
filesystem and creates nothing. -/
theorem range_validation_no_write_witness :
    write_demo_id_file 10 5 "out.txt" { files := [], dirs := [] } =
      (.error "end_id must be greater than or equal to start_id",
       { files := [], dirs := [] }) :=
  range_validation_no_write 10 5 "out.txt" { files := [], dirs := [] } (by decide)

/-- Splitting on a separator that does not occur yields the whole string
as the single segment. -/
theorem splitOnChar_of_not_mem (sep : Char) (l : List Char) (h : sep ∉ l) :
    splitOnChar sep l = [l] := by
  induction l with
  | nil => rfl
  | cons c rest ih =>
    simp only [List.mem_cons, not_or] at h
    rw [splitOnChar, ih h.2]
    simp [Ne.symm h.1]

/-- C10: the Content-Disposition parser skips the first
semicolon-separated segment entirely — any header without a `;` (in
particular a bare `filename="x.rar"`) parses to no filename, and filename
derivation then falls through to the basename of the final resolved URL,
or to the `"<id>_demo.rar"` fallback when the URL has no basename. -/
theorem first_segment_never_filename :
    (∀ h : String, ';' ∉ h.data → parse_content_disposition h = none) ∧
    parse_content_disposition "filename=\"x.rar\"" = none ∧
    filename_from_response (some "filename=\"x.rar\"")
      "https://static.hltv.org/demos/x.rar" 7 = "7_x.rar" ∧
    filename_from_response (some "filename=\"x.rar\"") "" 7 = "7_demo.rar" := by
  refine ⟨?_, rfl, rfl, rfl⟩
  intro h hmem
  rw [parse_content_disposition, splitOnChar_of_not_mem ';' h.data hmem]
  by_cases hp : pyStrip h.data = []
  · simp [hp, scanParts]
  · simp [hp, scanParts]

/-- C10 witness: a semicolon-free header parses to no filename. -/
theorem first_segment_never_filename_witness :
    parse_content_disposition "attachment" = none :=
  first_segment_never_filename.1 "attachment" (by decide)

/-- C3 counterexample: in a header carrying the plain `filename`
parameter before the `filename*` parameter, the parser returns the plain
parameter's value `"a.rar"`, not the `filename*` value `"b.rar"` — so
"prefer `filename*` regardless of order" is false on the code. -/
theorem filename_param_order_counterexample :
    parse_content_disposition
        "attachment; filename=\"a.rar\"; filename*=UTF-8''b.rar" = some "a.rar" ∧
    ("a.rar" : String) ≠ "b.rar" := by
  refine ⟨rfl, by decide⟩

/-- C3 (amended): filename derivation uses whichever of `filename*=` and
`filename=` appears first in the left-to-right scan of the parameters
after the first segment (`filename*` percent-decoded with the charset
ignored, either one reduced to its basename); `filename*` wins only when
it precedes the plain parameter, as the two concrete headers show. -/
theorem parse_content_disposition_first_match :
    (∀ (pre : List (List Char)) (p : List Char) (post : List (List Char)) (v : List Char),
      (∀ q ∈ pre, extractPart q = none) → extractPart p = some v →
        scanParts (pre ++ p :: post) = some v) ∧
    parse_content_disposition
      "attachment; filename*=UTF-8''b.rar; filename=\"a.rar\"" = some "b.rar" ∧
    parse_content_disposition
      "attachment; filename=\"a.rar\"; filename*=UTF-8''b.rar" = some "a.rar" := by
  refine ⟨?_, rfl, rfl⟩
  intro pre
  induction pre with
  | nil =>
    intro p post v _ hp
    simp [scanParts, hp]
  | cons q rest ih =>
    intro p post v hpre hp
    have hq := hpre q (List.mem_cons_self q rest)
    have htail := ih p post v (fun r hr => hpre r (List.mem_cons_of_mem q hr)) hp
    simpa [scanParts, hq] using htail

/-- C3 witness: with the non-matching parameter `size=5` ahead of them,
the first matching parameter (`filename*`) supplies the name. -/
theorem parse_content_disposition_first_match_witness :
    scanParts ["size=5".data, "filename*=UTF-8''b.rar".data, "filename=\"a.rar\"".data] =
      some "b.rar".data :=
  parse_content_disposition_first_match.1 ["size=5".data]
    "filename*=UTF-8''b.rar".data ["filename=\"a.rar\"".data] "b.rar".data
    (by intro q hq; simp at hq; subst hq; rfl) rfl

/-- Dict assignment stores the assigned value under the assigned key. -/
theorem jlookup_jset_self (l : List (String × JVal)) (k : String) (v : JVal) :
    jlookup (jset l k v) k = some v := by
  induction l with
  | nil => simp [jset, jlookup]
  | cons hd rest ih =>
    obtain ⟨k0, v0⟩ := hd
    by_cases hk : k0 = k
    · simp [jset, hk, jlookup]
    · simp [jset, hk, jlookup, ih]

/-- Dict assignment leaves every other key's binding unchanged. -/
theorem jlookup_jset_ne (l : List (String × JVal)) (k k' : String) (v : JVal)
    (h : k' ≠ k) :
    jlookup (jset l k v) k' = jlookup l k' := by
  induction l with
  | nil => simp [jset, jlookup, Ne.symm h]
  | cons hd rest ih =>
    obtain ⟨k0, v0⟩ := hd
    by_cases hk : k0 = k
    · subst hk
      simp [jset, jlookup, Ne.symm h]
    · simp [jset, hk, jlookup, ih]

/-- The merged document's `"demos"` object is the old one with the new
entry assigned. -/
theorem demosOf_mergeDemoEntry (metadata : List (String × JVal)) (demo_id : Int)
    (entry : JVal) (now : String) :
    demosOf (mergeDemoEntry metadata demo_id entry now) =
      jset (demosOf metadata) (toString demo_id) entry := by
  rw [mergeDemoEntry]
  rw [demosOf, jlookup_jset_ne _ _ _ _ (by decide), jlookup_jset_self]

/-- C8: the read-merge-write of the metadata document touches only
`demos[str(demo_id)]` and the top-level `last_updated`: the new entry is
stored under `str(demo_id)`, every other ID's entry is returned
unchanged, every other top-level key keeps its binding, a missing file
loads as the empty document, and an unparseable file loads as the empty
document with the warning flag set — `_load_metadata` is total, so
neither case aborts. -/
theorem metadata_merge_localized (metadata : List (String × JVal)) (demo_id : Int)
    (entry : JVal) (now : String)
    (_hwf : jlookup metadata "demos" = none ∨
           ∃ fs, jlookup metadata "demos" = some (JVal.obj fs)) :
    jlookup (demosOf (mergeDemoEntry metadata demo_id entry now)) (toString demo_id) =
      some entry ∧
    (∀ k, k ≠ toString demo_id →
      jlookup (demosOf (mergeDemoEntry metadata demo_id entry now)) k =
        jlookup (demosOf metadata) k) ∧
    jlookup (mergeDemoEntry metadata demo_id entry now) "last_updated" =
      some (JVal.str now) ∧
    (∀ k, k ≠ "demos" → k ≠ "last_updated" →
      jlookup (mergeDemoEntry metadata demo_id entry now) k = jlookup metadata k) ∧
    load_metadata .absent = ([], false) ∧
    (∀ e, load_metadata (.present (.error e)) = ([], true)) := by
  refine ⟨?_, ?_, ?_, ?_, rfl, fun _ => rfl⟩
  · rw [demosOf_mergeDemoEntry, jlookup_jset_self]
  · intro k hk
    rw [demosOf_mergeDemoEntry, jlookup_jset_ne _ _ _ _ hk]
  · rw [mergeDemoEntry, jlookup_jset_self]
  · intro k hkd hku
    rw [mergeDemoEntry, jlookup_jset_ne _ _ _ _ hku, jlookup_jset_ne _ _ _ _ hkd]

/-- A concrete two-key document with an existing entry for ID 1. -/
def mdDoc0 : List (String × JVal) :=
  [("demos", JVal.obj [("1", JVal.str "old")]), ("extra", JVal.num 7)]

/-- C8 witness: merging an entry for ID 2 into a document that already
holds ID 1 leaves ID 1's entry and the unrelated top-level key unchanged
while storing the new entry under `"2"`. -/
theorem metadata_merge_localized_witness :
    jlookup (demosOf (mergeDemoEntry mdDoc0 2 (JVal.str "new") "T")) "1" =
      some (JVal.str "old") ∧
    jlookup (demosOf (mergeDemoEntry mdDoc0 2 (JVal.str "new") "T")) "2" =
      some (JVal.str "new") ∧
    jlookup (mergeDemoEntry mdDoc0 2 (JVal.str "new") "T") "extra" =
      some (JVal.num 7) := by
  obtain ⟨h1, h2, _, h4, _, _⟩ :=
    metadata_merge_localized mdDoc0 2 (JVal.str "new") "T" (Or.inr ⟨_, rfl⟩)
  exact ⟨(h2 "1" (by decide)).trans rfl, h1, (h4 "extra" (by decide) (by decide)).trans rfl⟩

/-- A match page on which every selector query comes back empty. -/
def pageEmpty : SoupPage :=
  { resultCardHref := none, teamsBoxNames := [], dropdownNames := [], dateUnix := none }

/-- The caller-side facts of a freshly downloaded demo with ID 1. -/
def recInp1 : RecordInput :=
  { demo_id := 1, fileName := "1_f.rar", fileSize := 3,
    original_url := "https://www.hltv.org/download/demo/1",
    response_url := "https://r" }

/-- C4 counterexample: when the search GET for the match page returns
status 500, `record_download` does not propagate the failure — it
catches it (the warning flag is set) and still writes a metadata entry
for the ID, with `match_info` null. -/
theorem record_download_writes_entry_on_search_failure :
    (record_download (.ok 500 pageEmpty) (fun _ => .raises "x") (fun _ => "")
        recInp1 "D" "U" .absent).doc =
      [("demos", JVal.obj [("1", demoEntryJson recInp1 none "D")]),
       ("last_updated", JVal.str "U")] ∧
    (record_download (.ok 500 pageEmpty) (fun _ => .raises "x") (fun _ => "")
        recInp1 "D" "U" .absent).metaWarned = true := by
  exact ⟨rfl, rfl⟩

/-- C4 (amended): for every ID, when the search GET returns a non-success
status, `record_download` catches the raised error internally (logging a
warning) rather than propagating it, and still writes a metadata entry
for that ID whose `match_info` is null. -/
theorem record_download_catches_search_failure (matchFetch : String → HttpReply)
    (msToDate : Int → String) (inp : RecordInput) (downloadDate lastUpdated : String)
    (fstate : MetaFileState) (page : SoupPage) (status : Int)
    (h4 : 400 ≤ status) (h6 : status < 600) :
    (record_download (.ok status page) matchFetch msToDate inp
        downloadDate lastUpdated fstate).metaWarned = true ∧
    jlookup (demosOf (record_download (.ok status page) matchFetch msToDate inp
        downloadDate lastUpdated fstate).doc) (toString inp.demo_id) =
      some (demoEntryJson inp none downloadDate) ∧
    (∃ fields, demoEntryJson inp none downloadDate = JVal.obj fields ∧
      jlookup fields "match_info" = some JVal.null) := by
  have hraise : raise_for_status_err status = some ("HTTP error " ++ toString status) := by
    rw [raise_for_status_err, if_pos ⟨h4, h6⟩]
  have hcollect : collect_match_metadata (.ok status page) matchFetch msToDate =
      .error ("HTTP error " ++ toString status) := by
    rw [collect_match_metadata, locate_match_url, hraise]
  have hrec : record_download (.ok status page) matchFetch msToDate inp
      downloadDate lastUpdated fstate =
      { doc := mergeDemoEntry (load_metadata fstate).1 inp.demo_id
          (demoEntryJson inp none downloadDate) lastUpdated,
        metaWarned := true, parseWarned := (load_metadata fstate).2 } := by
    rw [record_download, hcollect]
  rw [hrec]
  refine ⟨rfl, ?_, ?_⟩
  · rw [demosOf_mergeDemoEntry, jlookup_jset_self]
  · exact ⟨_, rfl, rfl⟩

/-- C4 witness: status 500 on the search GET at concrete inputs. -/
theorem record_download_catches_search_failure_witness :
    (record_download (.ok 500 pageEmpty) (fun _ => .raises "y") (fun _ => "")
        recInp1 "D" "U" .absent).metaWarned = true ∧
    jlookup (demosOf (record_download (.ok 500 pageEmpty) (fun _ => .raises "y") (fun _ => "")
        recInp1 "D" "U" .absent).doc) "1" = some (demoEntryJson recInp1 none "D") := by
  obtain ⟨h1, h2, _⟩ := record_download_catches_search_failure (fun _ => .raises "y")
    (fun _ => "") recInp1 "D" "U" .absent pageEmpty 500 (by decide) (by decide)
  exact ⟨h1, h2⟩

/-- Filtering out the members of `acc ++ [d]` is filtering out the
members of `acc` and then the copies of `d`. -/
theorem filter_not_mem_append_singleton (d : Int) (acc rest : List Int) :
    rest.filter (fun x => decide (x ∉ acc ++ [d])) =
      (rest.filter (fun x => decide (x ∉ acc))).filter (fun x => decide (x ≠ d)) := by
  induction rest with
  | nil => rfl
  | cons a t ih =>
    by_cases hacc : a ∈ acc
    · have h1 : (a :: t).filter (fun x => decide (x ∉ acc ++ [d])) =
          t.filter (fun x => decide (x ∉ acc ++ [d])) := by
        simp [List.filter_cons, hacc]
      have h2 : (a :: t).filter (fun x => decide (x ∉ acc)) =
          t.filter (fun x => decide (x ∉ acc)) := by
        simp [List.filter_cons, hacc]
      rw [h1, h2, ih]
    · by_cases hd : a = d
      · subst hd
        have h1 : (a :: t).filter (fun x => decide (x ∉ acc ++ [a])) =
            t.filter (fun x => decide (x ∉ acc ++ [a])) := by
          simp [List.filter_cons]
        have h2 : (a :: t).filter (fun x => decide (x ∉ acc)) =
            a :: t.filter (fun x => decide (x ∉ acc)) := by
          simp [List.filter_cons, hacc]
        have h3 : (a :: t.filter (fun x => decide (x ∉ acc))).filter
              (fun x => decide (x ≠ a)) =
            (t.filter (fun x => decide (x ∉ acc))).filter (fun x => decide (x ≠ a)) := by
          simp [List.filter_cons]
        rw [h1, h2, h3, ih]
      · have h1 : (a :: t).filter (fun x => decide (x ∉ acc ++ [d])) =
            a :: t.filter (fun x => decide (x ∉ acc ++ [d])) := by
          simp [List.filter_cons, hacc, hd]
        have h2 : (a :: t).filter (fun x => decide (x ∉ acc)) =
            a :: t.filter (fun x => decide (x ∉ acc)) := by
          simp [List.filter_cons, hacc]
        have h3 : (a :: t.filter (fun x => decide (x ∉ acc))).filter
              (fun x => decide (x ≠ d)) =
            a :: (t.filter (fun x => decide (x ∉ acc))).filter (fun x => decide (x ≠ d)) := by
          simp [List.filter_cons, hd]
        rw [h1, h2, h3, ih]

/-- The `unique_demo_ids` loop appends, after its accumulator, the first
occurrences of the not-yet-seen input elements. -/
theorem uniqueGo_eq (l : List Int) :
    ∀ acc : List Int,
      uniqueGo acc l = acc ++ firstOccs (l.filter (fun x => decide (x ∉ acc))) := by
  induction l with
  | nil => intro acc; simp [uniqueGo, firstOccs]
  | cons d rest ih =>
    intro acc
    by_cases hd : d ∈ acc
    · rw [uniqueGo, if_pos hd, ih acc]
      have hf : (d :: rest).filter (fun x => decide (x ∉ acc)) =
          rest.filter (fun x => decide (x ∉ acc)) := by
        simp [List.filter_cons, hd]
      rw [hf]
    · rw [uniqueGo, if_neg hd, ih (acc ++ [d])]
      have hf : (d :: rest).filter (fun x => decide (x ∉ acc)) =
          d :: rest.filter (fun x => decide (x ∉ acc)) := by
        simp [List.filter_cons, hd]
      rw [hf, firstOccs, filter_not_mem_append_singleton]
      simp

/-- `unique_demo_ids` computes exactly the first-occurrence sequence. -/
theorem unique_demo_ids_eq_firstOccs (l : List Int) :
    unique_demo_ids l = firstOccs l := by
  rw [unique_demo_ids, uniqueGo_eq l []]
  simp

/-- The first-occurrence sequence has the same members as its input. -/
theorem firstOccs_mem (x : Int) :
    ∀ (n : Nat) (l : List Int), l.length ≤ n → (x ∈ firstOccs l ↔ x ∈ l) := by
  intro n
  induction n with
  | zero =>
    intro l hl
    rw [List.length_eq_zero.mp (Nat.le_zero.mp hl)]
    simp [firstOccs]
  | succ m ih =>
    intro l hl
    match l with
    | [] => simp [firstOccs]
    | d :: rest =>
      have hlen : (rest.filter (fun x => decide (x ≠ d))).length ≤ m :=
        le_trans (List.length_filter_le _ _) (Nat.succ_le_succ_iff.mp hl)
      rw [firstOccs]
      by_cases hxd : x = d
      · simp [hxd]
      · simp only [List.mem_cons, hxd, false_or]
        rw [ih _ hlen]
        simp [List.mem_filter, hxd]

/-- The first-occurrence sequence has no duplicates. -/
theorem firstOccs_nodup :
    ∀ (n : Nat) (l : List Int), l.length ≤ n → (firstOccs l).Nodup := by
  intro n
  induction n with
  | zero =>
    intro l hl
    rw [List.length_eq_zero.mp (Nat.le_zero.mp hl)]
    simp [firstOccs]
  | succ m ih =>
    intro l hl
    match l with
    | [] => simp [firstOccs]
    | d :: rest =>
      have hlen : (rest.filter (fun x => decide (x ≠ d))).length ≤ m :=
        le_trans (List.length_filter_le _ _) (Nat.succ_le_succ_iff.mp hl)
      rw [firstOccs]
      refine List.nodup_cons.mpr ⟨?_, ih _ hlen⟩
      intro hmem
      have := (firstOccs_mem d _ _ (le_refl _)).mp hmem
      simp [List.mem_filter] at this

/-- C5: the ID set builder returns each supplied value exactly once
(no duplicates, and membership coincides with the input), in
first-occurrence order over the concatenation — `unique_demo_ids` equals
the first-occurrence sequence of its input — and, through
`collect_demo_ids`, explicit IDs precede file IDs precede the expanded
range: explicit `[5,3,5]` with range `3..4` yields `[5,3,4]`. -/
theorem unique_ids_first_occurrence (l : List Int) :
    unique_demo_ids l = firstOccs l ∧
    (unique_demo_ids l).Nodup ∧
    (∀ x : Int, x ∈ unique_demo_ids l ↔ x ∈ l) ∧
    collect_demo_ids [5, 3, 5] [] (some (3, 4)) = .ok [5, 3, 4] := by
  refine ⟨unique_demo_ids_eq_firstOccs l, ?_, ?_, rfl⟩
  · rw [unique_demo_ids_eq_firstOccs l]
    exact firstOccs_nodup l.length l (le_refl _)
  · intro x
    rw [unique_demo_ids_eq_firstOccs l]
    exact firstOccs_mem x l.length l (le_refl _)
